import Mathlib

/-!
Verification development for `video_processor.py`: a shallow embedding of the
probe-result data model, the audio-track classifier (`get_audio_tracks`), the
English-track selection policy (`find_english_track`), the transactional
backup/remux/commit-or-rollback protocol, and the per-file driver
(`process_video_file`), together with theorems settling the specified
properties of each.
-/

/-- Sentinel language value used by the classifier when a stream carries no
language tag (`stream.get('tags', \x7b\x7d).get('language', 'und')`). -/
def undLit : String := "und"

/-- Default empty string used for a missing title or codec name. -/
def emptyStr : String := ""

/-- One entry of the probe output's `streams` list. `language` and `title`
model the optional `tags.language` / `tags.title` values; `codec_name` and
`channels` are likewise optional keys of the stream object. -/
structure FFStream where
  index : Nat
  codec_type : String
  language : Option String
  title : Option String
  codec_name : Option String
  channels : Option Nat
deriving DecidableEq, Repr

/-- The parsed JSON document returned by a successful probe
(`json.loads(result.stdout)`). `streams = none` models a document without a
`streams` key; `hasOtherKeys` records whether any other top-level key is
present, so that Python dict truthiness (`not video_info`) is expressible. -/
structure VideoInfo where
  streams : Option (List FFStream)
  hasOtherKeys : Bool
deriving DecidableEq, Repr

/-- Python falsiness of the parsed dict: `not video_info` is true exactly when
the dict is empty, i.e. it has neither a `streams` key nor any other key. -/
def VideoInfo.isEmptyDict (v : VideoInfo) : Bool :=
  v.streams.isNone && !v.hasOtherKeys

/-- The classified audio-track record built by `get_audio_tracks` for one
audio stream. -/
structure AudioTrack where
  index : Nat
  language : String
  title : String
  codec : String
  channels : Nat
deriving DecidableEq, Repr

/-- The `track_info` dict built for one audio stream: raw (not lowercased)
language tag defaulting to `'und'`, title defaulting to `''`, codec name
defaulting to `''`, channels defaulting to `0`. -/
def mkTrack (s : FFStream) : AudioTrack :=
  { index := s.index
    language := s.language.getD undLit
    title := s.title.getD emptyStr
    codec := s.codec_name.getD emptyStr
    channels := s.channels.getD 0 }

/-- The accumulation loop of `get_audio_tracks`: walk the `streams` list in
order, appending a track record for each stream whose `codec_type` is
`'audio'`. -/
def audioLoop : List FFStream → List AudioTrack
  | [] => []
  | s :: rest =>
    if s.codec_type == "audio" then mkTrack s :: audioLoop rest
    else audioLoop rest

/-- `get_audio_tracks(video_info, ...)`: iterate over
`video_info.get('streams', [])` and collect the audio-track records. -/
def get_audio_tracks (v : VideoInfo) : List AudioTrack :=
  audioLoop (v.streams.getD [])

/-- Substring test on character lists, the semantics of Python's
`needle in hay` for strings: an empty needle is contained everywhere, and
otherwise the needle must be a prefix of some suffix of the haystack. -/
def listContainsSub : List Char → List Char → Bool
  | [], needle => needle.isEmpty
  | c :: rest, needle => needle.isPrefixOf (c :: rest) || listContainsSub rest needle

/-- Python's `needle in hay` on strings. -/
def strContainsSub (hay needle : String) : Bool :=
  listContainsSub hay.toList needle.toList

/-- Python's `str.lower()` (restricted to the ASCII range, which covers every
language code and title the program compares against). -/
def lowerStr (s : String) : String := ⟨s.toList.map Char.toLower⟩

/-- `english_codes = {'en', 'eng', 'english'}`. -/
def english_codes : List String := ["en", "eng", "english"]

/-- Phase A test of `find_english_track`: `track['language'].lower()` is a
member of `english_codes`. -/
def isTagEnglish (t : AudioTrack) : Bool :=
  english_codes.contains (lowerStr t.language)

/-- The word `'english'` of the Phase B title heuristic. -/
def englishWord : String := "english"

/-- The word `'eng'` of the Phase B title heuristic. -/
def engWord : String := "eng"

/-- Phase B test of `find_english_track`:
`any(eng_word in title for eng_word in ['english', 'eng'])` on the lowercased
title. -/
def isTitleEnglish (t : AudioTrack) : Bool :=
  strContainsSub (lowerStr t.title) englishWord ||
    strContainsSub (lowerStr t.title) engWord

/-- `find_english_track(audio_tracks, ...)`: the first loop returns the index
of the first track whose lowercased language tag is an English code; only if
no track matches does the second loop run, returning the index of the first
track whose lowercased title contains `'english'` or `'eng'`; otherwise
`None`. -/
def find_english_track (audio_tracks : List AudioTrack) : Option Nat :=
  match audio_tracks.find? isTagEnglish with
  | some t => some t.index
  | none =>
    match audio_tracks.find? isTitleEnglish with
    | some t => some t.index
    | none => none

/-- The set of audio stream indices the program keeps: `find_english_track`
returns at most one index, and the ffmpeg command maps exactly that one audio
stream (`-map 0:idx`), so the keep set is a singleton or empty. -/
def keepSet (tracks : List AudioTrack) : List Nat :=
  match find_english_track tracks with
  | some i => [i]
  | none => []

/-- The behaviour of one ffmpeg invocation: its exit status `rc` and the
content `out` it leaves at the output path (the original path), `none` when it
writes nothing there. -/
structure FfmpegBehavior where
  rc : Nat
  out : Option String
deriving DecidableEq, Repr

/-- The two disk locations the rewrite protocol touches: the original path and
the sibling `<path>.backup` path, each holding some content or absent. -/
structure FsState where
  orig : Option String
  backup : Option String
deriving DecidableEq, Repr

/-- Fault injection for the filesystem operations of the protocol: each flag
makes the corresponding `os.rename` / `os.remove` call raise `OSError` with no
effect on disk. -/
structure FsFaults where
  renameToBackupFails : Bool
  removeBackupFails : Bool
  restoreRenameFails : Bool
  emergencyRemoveFails : Bool
  emergencyRenameFails : Bool
deriving DecidableEq, Repr

/-- All filesystem operations succeed. -/
def noFaults : FsFaults := ⟨false, false, false, false, false⟩

/-- Only the commit-step `os.remove(backup_path)` fails. -/
def removeBackupFaults : FsFaults := ⟨false, true, false, false, false⟩

/-- The shared `except OSError` / `except Exception` handler of
`process_video_file`: if the backup path exists, try to remove any file at the
original path and rename the backup back; a failure inside this restore is
caught by the inner `except` and swallowed (logged only), leaving the state as
it was at the point of that failure. -/
def emergencyRestore (s : FsState) (faults : FsFaults) : FsState :=
  if s.backup.isSome then
    if s.orig.isSome then
      if faults.emergencyRemoveFails then s
      else if faults.emergencyRenameFails then ⟨none, s.backup⟩
      else ⟨s.backup, none⟩
    else
      if faults.emergencyRenameFails then s
      else ⟨s.backup, none⟩
  else s

/-- The transactional rewrite body of `process_video_file` (the `try` block
from `os.rename(file_path, backup_path)` onward, with its exception
handlers), starting from content `c` at the original path and no backup file.
Returns the final disk state and the boolean the function returns. -/
def rewriteRun (c : String) (ff : FfmpegBehavior) (faults : FsFaults) :
    FsState × Bool :=
  if faults.renameToBackupFails then
    (⟨some c, none⟩, false)
  else
    let s : FsState := ⟨ff.out, some c⟩
    if ff.rc == 0 then
      if faults.removeBackupFails then (emergencyRestore s faults, false)
      else (⟨ff.out, none⟩, true)
    else
      if faults.restoreRenameFails then (emergencyRestore s faults, false)
      else (⟨some c, none⟩, false)

/-- Everything observable about one call of `process_video_file`: the boolean
it returns, the selection decision it computed (when it reached selection),
the entry appended to `no_english_tracks.log` (when any), whether ffmpeg was
invoked, whether the backup rename was performed, and the final disk state of
the original and backup paths. -/
structure ProcessEffects where
  result : Bool
  decision : Option Nat
  audit : Option (String × List AudioTrack)
  remuxInvoked : Bool
  backupCreated : Bool
  fs : FsState
deriving DecidableEq, Repr

/-- Effects of a call that returns `b` without reaching the rewrite protocol
or the audit log: the disk is untouched. -/
def untouched (c : String) (b : Bool) : ProcessEffects :=
  ⟨b, none, none, false, false, ⟨some c, none⟩⟩

/-- `process_video_file(file_path, dry_run, ...)`. `probe` is the result of
`get_video_info` (`none` on probe failure), `c` the content at `path` before
the call, `ff` and `faults` the behaviour of the external tool and of the
filesystem operations. Follows the source: probe failure or a falsy (empty)
parsed dict returns `False`; `<= 1` audio tracks returns `True` untouched; no
English track appends the path and full track list to the audit log and
returns `True`; in dry-run mode the function returns `True` before any disk
mutation; otherwise the rewrite protocol runs. -/
def process_video_file (path : String) (probe : Option VideoInfo)
    (dryRun : Bool) (c : String) (ff : FfmpegBehavior) (faults : FsFaults) :
    ProcessEffects :=
  match probe with
  | none => untouched c false
  | some vi =>
    if vi.isEmptyDict then untouched c false
    else
      let tracks := get_audio_tracks vi
      if tracks.length ≤ 1 then untouched c true
      else
        match find_english_track tracks with
        | none => ⟨true, none, some (path, tracks), false, false, ⟨some c, none⟩⟩
        | some idx =>
          if dryRun then ⟨true, some idx, none, false, false, ⟨some c, none⟩⟩
          else
            let r := rewriteRun c ff faults
            ⟨r.2, some idx, none, !faults.renameToBackupFails,
              !faults.renameToBackupFails, r.1⟩

/-- Pointwise relation between two track lists that agree on every field
except possibly the title. -/
def TitleVariant (a b : AudioTrack) : Prop :=
  a.index = b.index ∧ a.language = b.language ∧ a.codec = b.codec ∧
    a.channels = b.channels

/-! Concrete fixtures used by witnesses and counterexamples. -/

/-- Sample file path. -/
def pathF : String := "movie.mkv"

/-- Sample pre-processing content of the original file. -/
def contentA : String := "ORIGINAL"

/-- Sample remuxed output content, distinct from `contentA`. -/
def contentB : String := "REMUXED"

/-- An ffmpeg run that succeeds and writes `contentB` to the original path. -/
def ffOk : FfmpegBehavior := ⟨0, some contentB⟩

/-- An ffmpeg run that exits with status 1 leaving a partial output. -/
def ffBad : FfmpegBehavior := ⟨1, some ("PARTIAL")⟩

/-- Two tracks tagged `eng` and `en`: both are tag-matched. -/
def trkEng1 : AudioTrack := ⟨1, "eng", "", "ac3", 2⟩

/-- Second English-tagged track (`en`, 5.1). -/
def trkEn2 : AudioTrack := ⟨2, "en", "", "dts", 6⟩

/-- Untagged track whose title is English-matching. -/
def trkFrTitleEnglish : AudioTrack := ⟨1, "fr", "English", "aac", 2⟩

/-- Second title-matched track. -/
def trkDeTitleEng : AudioTrack := ⟨2, "de", "eng dub", "aac", 2⟩

/-- German-tagged track with empty title. -/
def trkDe : AudioTrack := ⟨1, "de", "", "ac3", 6⟩

/-- Japanese-tagged track with empty title. -/
def trkJa : AudioTrack := ⟨2, "ja", "", "aac", 2⟩

/-- English-tagged track with a commentary title. -/
def trkEngTitled : AudioTrack := ⟨1, "eng", "Commentary", "ac3", 2⟩

/-- The same track as `trkEngTitled` with a different title. -/
def trkEngRetitled : AudioTrack := ⟨1, "eng", "Main Mix", "ac3", 2⟩

/-- A video stream entry of a probe manifest. -/
def sVideo : FFStream := ⟨0, "video", none, none, some ("h264"), none⟩

/-- German audio stream. -/
def sAudioDe : FFStream := ⟨1, "audio", some ("de"), none, some ("ac3"), some 6⟩

/-- Japanese audio stream. -/
def sAudioJa : FFStream := ⟨2, "audio", some ("ja"), none, some ("aac"), some 2⟩

/-- Audio stream whose language tag is uppercase `ENG`. -/
def sAudioENG : FFStream := ⟨1, "audio", some ("ENG"), none, some ("aac"), some 2⟩

/-- Manifest with two audio tracks, neither English by tag or title. -/
def viAmbiguous : VideoInfo := ⟨some [sVideo, sAudioDe, sAudioJa], true⟩

/-- Manifest with exactly one audio track. -/
def viSingle : VideoInfo := ⟨some [sVideo, sAudioDe], true⟩

/-- Manifest whose single audio track has an uppercase language tag. -/
def viUpperLang : VideoInfo := ⟨some [sVideo, sAudioENG], true⟩

/-- The parse of `\x7b\x7d`: a JSON document that is an empty object. -/
def viEmptyDict : VideoInfo := ⟨none, false⟩

/-- A non-empty JSON object with no `streams` key. -/
def viNoStreams : VideoInfo := ⟨none, true⟩

/-! Theorems. -/

/-- Helper: the Phase A loop only reads the language field, so on two lists
that differ only in titles it stops at the same position and returns tracks
with the same index. -/
theorem find_tag_index_congr {ts1 ts2 : List AudioTrack}
    (h : List.Forall₂ TitleVariant ts1 ts2) :
    (ts1.find? isTagEnglish).map AudioTrack.index
      = (ts2.find? isTagEnglish).map AudioTrack.index := by
  induction h with
  | nil => rfl
  | cons hab htail ih =>
    rename_i a b l1 l2
    have hlang : isTagEnglish a = isTagEnglish b := by
      unfold isTagEnglish
      rw [hab.2.1]
    cases htag : isTagEnglish a with
    | true =>
      have hb : isTagEnglish b = true := by rw [← hlang]; exact htag
      simp [List.find?_cons, htag, hb, hab.1]
    | false =>
      have hb : isTagEnglish b = false := by rw [← hlang]; exact htag
      simpa [List.find?_cons, htag, hb] using ih

/-- C3 (corrected): when at least one track is tag-matched, the first loop of
`find_english_track` returns the index of the FIRST tag-matched track, and the
keep set is that singleton — not the set of all tag-matched tracks. -/
theorem c3_phaseA_first_match (tracks : List AudioTrack) (t : AudioTrack)
    (h : tracks.find? isTagEnglish = some t) :
    keepSet tracks = [t.index] := by
  simp [keepSet, find_english_track, h]

/-- Witness for `c3_phaseA_first_match` at a concrete two-English-track
list. -/
theorem c3_witness : keepSet [trkEng1, trkEn2] = [1] :=
  c3_phaseA_first_match [trkEng1, trkEn2] trkEng1 (by decide)

/-- C3 counterexample: with two tag-matched tracks (indices 1 and 2) the
program's keep set is `[1]`, not the full tag-matched set `[1, 2]` that the
claim asserts. -/
theorem c3_counterexample :
    (([trkEng1, trkEn2].filter isTagEnglish).map AudioTrack.index = [1, 2])
    ∧ keepSet [trkEng1, trkEn2] = [1]
    ∧ ([1] : List Nat) ≠ [1, 2] := by decide

/-- C4 (confirmed): when some track is tag-matched, the selection result is
identical across any two runs whose track lists differ only in titles: Phase A
never consults titles and returns before Phase B can run. -/
theorem c4_phaseA_noninterference (ts1 ts2 : List AudioTrack)
    (hvar : List.Forall₂ TitleVariant ts1 ts2)
    (hex : ∃ t ∈ ts1, isTagEnglish t = true) :
    find_english_track ts1 = find_english_track ts2 := by
  obtain ⟨t, hmem, htag⟩ := hex
  cases h1 : ts1.find? isTagEnglish with
  | none =>
    exfalso
    rw [List.find?_eq_none] at h1
    exact h1 t hmem htag
  | some u =>
    have hmap := find_tag_index_congr hvar
    rw [h1] at hmap
    cases h2 : ts2.find? isTagEnglish with
    | none => rw [h2] at hmap; simp at hmap
    | some v =>
      rw [h2] at hmap
      simp only [Option.map] at hmap
      simp [find_english_track, h1, h2, Option.some.inj hmap]

/-- Witness for `c4_phaseA_noninterference`: the same English-tagged pair with
two different commentary titles selects the same track. -/
theorem c4_witness :
    find_english_track [trkEngTitled, trkEn2]
      = find_english_track [trkEngRetitled, trkEn2] :=
  c4_phaseA_noninterference [trkEngTitled, trkEn2] [trkEngRetitled, trkEn2]
    (by simp [TitleVariant, trkEngTitled, trkEngRetitled, trkEn2])
    ⟨trkEngTitled, by decide, by decide⟩

/-- C5 (corrected): with no tag match and at least one title match, the second
loop returns the index of the FIRST title-matched track; the keep set is that
singleton, not the set of all title-matched tracks. -/
theorem c5_phaseB_first_match (tracks : List AudioTrack) (t : AudioTrack)
    (hA : tracks.find? isTagEnglish = none)
    (hB : tracks.find? isTitleEnglish = some t) :
    keepSet tracks = [t.index] := by
  simp [keepSet, find_english_track, hA, hB]

/-- Witness for `c5_phaseB_first_match` at a concrete two-title-match list. -/
theorem c5_witness : keepSet [trkFrTitleEnglish, trkDeTitleEng] = [1] :=
  c5_phaseB_first_match [trkFrTitleEnglish, trkDeTitleEng] trkFrTitleEnglish
    (by decide) (by decide)

/-- C5 counterexample: with two title-matched tracks (indices 1 and 2) and no
tag match, the keep set is `[1]`, not the full title-matched set `[1, 2]`. -/
theorem c5_counterexample :
    ([trkFrTitleEnglish, trkDeTitleEng].find? isTagEnglish = none)
    ∧ (([trkFrTitleEnglish, trkDeTitleEng].filter isTitleEnglish).map
        AudioTrack.index = [1, 2])
    ∧ keepSet [trkFrTitleEnglish, trkDeTitleEng] = [1]
    ∧ ([1] : List Nat) ≠ [1, 2] := by decide

/-- C1 (corrected): first, when the transform exits non-zero and the
filesystem operations succeed, the rollback leaves the pre-processing content
at the original path and no backup file. Second, on EVERY exit path that
returns failure — under arbitrary fault injection in the filesystem
operations — the pre-processing content survives at the original path or at
the backup path. (The clean success exit instead leaves the remuxed output as
the sole copy; see the counterexample.) -/
theorem c1_rollback :
    (∀ (c : String) (ff : FfmpegBehavior), ff.rc ≠ 0 →
      rewriteRun c ff noFaults = (⟨some c, none⟩, false))
    ∧ (∀ (c : String) (ff : FfmpegBehavior) (faults : FsFaults),
      (rewriteRun c ff faults).2 = false →
      (rewriteRun c ff faults).1.orig = some c
        ∨ (rewriteRun c ff faults).1.backup = some c) := by
  constructor
  · intro c ff h
    obtain ⟨rc, out⟩ := ff
    have hrc : (rc == 0) = false := by
      cases hb : rc == 0
      · rfl
      · simp at hb
        exact absurd hb h
    simp [rewriteRun, noFaults, hrc]
  · intro c ff faults h
    obtain ⟨rc, out⟩ := ff
    obtain ⟨f1, f2, f3, f4, f5⟩ := faults
    cases f1 <;> cases f2 <;> cases f3 <;> cases f4 <;> cases f5 <;>
      cases out <;> cases hrc : rc == 0 <;>
        simp_all [rewriteRun, emergencyRestore]

/-- Witness for `c1_rollback`: a concrete failed transform rolls back cleanly,
and a concrete faulted run still preserves the pre-processing content at one
of the two paths. -/
theorem c1_witness :
    rewriteRun contentA ffBad noFaults = (⟨some contentA, none⟩, false)
    ∧ ((rewriteRun contentB ffBad removeBackupFaults).1.orig = some contentB
        ∨ (rewriteRun contentB ffBad removeBackupFaults).1.backup
            = some contentB) :=
  ⟨c1_rollback.1 contentA ffBad (by decide),
    c1_rollback.2 contentB ffBad removeBackupFaults (by decide)⟩

/-- C1 counterexample: on the clean success exit the backup is gone and the
original path holds the remuxed output, so NEITHER path holds the
pre-processing content — refuting the claim that every exit path leaves
exactly one of the two paths holding it. -/
theorem c1_counterexample :
    (rewriteRun contentA ffOk noFaults).2 = true
    ∧ (rewriteRun contentA ffOk noFaults).1.backup = none
    ∧ (rewriteRun contentA ffOk noFaults).1.orig ≠ some contentA := by decide

/-- C2 (corrected): when the remux exits 0 but the commit-step
`os.remove(backup_path)` raises, the `except OSError` handler performs the
emergency restore: the remuxed output at the original path is removed, the
backup is renamed back, and the function returns `False` — the per-file
outcome is failure and the pre-processing content, not the remuxed file, is
the surviving copy. -/
theorem c2_commit_fault (c : String) (ff : FfmpegBehavior) (h : ff.rc = 0) :
    rewriteRun c ff removeBackupFaults = (⟨some c, none⟩, false) := by
  obtain ⟨rc, out⟩ := ff
  simp only at h
  subst h
  cases out <;> simp [rewriteRun, removeBackupFaults, emergencyRestore]

/-- Witness for `c2_commit_fault` at a concrete successful remux with a
failing backup deletion. -/
theorem c2_witness :
    rewriteRun contentA ffOk removeBackupFaults
      = (⟨some contentA, none⟩, false) :=
  c2_commit_fault contentA ffOk (by decide)

/-- C2 counterexample: remux succeeded (exit 0) yet the backup-deletion
failure makes the run return `False`, and the original path ends with the
pre-processing content rather than the remuxed output — refuting both parts
of the claim. -/
theorem c2_counterexample :
    (rewriteRun contentA ffOk removeBackupFaults).2 = false
    ∧ (rewriteRun contentA ffOk removeBackupFaults).1.orig = some contentA
    ∧ (rewriteRun contentA ffOk removeBackupFaults).1.orig ≠ ffOk.out := by
  decide

/-- Helper: a falsy (empty) parsed dict has no `streams` key, so its
classified track list is empty. -/
theorem tracks_empty_of_isEmptyDict (vi : VideoInfo)
    (h : vi.isEmptyDict = true) : get_audio_tracks vi = [] := by
  unfold VideoInfo.isEmptyDict at h
  cases hs : vi.streams with
  | none => simp [get_audio_tracks, hs, audioLoop]
  | some l => rw [hs] at h; simp at h

/-- C6 (confirmed): for a multi-track file where neither phase matches, the
call returns `True` (a recorded skip, not a failure), appends the path and the
full track list to the audit log, creates no backup, never invokes the remux
tool, and leaves the disk untouched. -/
theorem c6_ambiguous_audit (path : String) (vi : VideoInfo) (dryRun : Bool)
    (c : String) (ff : FfmpegBehavior) (faults : FsFaults)
    (hlen : 1 < (get_audio_tracks vi).length)
    (hnone : find_english_track (get_audio_tracks vi) = none) :
    process_video_file path (some vi) dryRun c ff faults
      = ⟨true, none, some (path, get_audio_tracks vi), false, false,
          ⟨some c, none⟩⟩ := by
  have hne : vi.isEmptyDict = false := by
    cases hie : vi.isEmptyDict
    · rfl
    · have := tracks_empty_of_isEmptyDict vi hie
      rw [this] at hlen
      simp at hlen
  have hgt : ¬ ((get_audio_tracks vi).length ≤ 1) := by omega
  simp [process_video_file, hne, hgt, hnone]

/-- Witness for `c6_ambiguous_audit` on a concrete German/Japanese file. -/
theorem c6_witness :
    process_video_file pathF (some viAmbiguous) false contentA ffBad noFaults
      = ⟨true, none, some (pathF, get_audio_tracks viAmbiguous), false, false,
          ⟨some contentA, none⟩⟩ :=
  c6_ambiguous_audit pathF viAmbiguous false contentA ffBad noFaults
    (by decide) (by decide)

/-- C7 (confirmed): for every accepted manifest whose classified track list
has length 0 or 1, the call returns `True` with no remux invocation, no
backup, no audit entry, and the disk untouched. -/
theorem c7_single_or_no_track (path : String) (vi : VideoInfo) (dryRun : Bool)
    (c : String) (ff : FfmpegBehavior) (faults : FsFaults)
    (hne : vi.isEmptyDict = false)
    (hlen : (get_audio_tracks vi).length ≤ 1) :
    process_video_file path (some vi) dryRun c ff faults = untouched c true := by
  simp [process_video_file, hne, hlen]

/-- Witness for `c7_single_or_no_track` on a concrete one-audio-track file. -/
theorem c7_witness :
    process_video_file pathF (some viSingle) false contentA ffOk noFaults
      = untouched contentA true :=
  c7_single_or_no_track pathF viSingle false contentA ffOk noFaults
    (by decide) (by decide)

/-- C8 (corrected): a dry run and a real run compute the same selection
decision on every input, and the dry run never invokes the remux tool, never
creates a backup, and leaves the disk untouched; however the dry run produces
exactly the same audit-log append as the real run, because the ambiguous-case
audit write precedes the dry-run check (see the counterexample). -/
theorem c8_dry_run_frame (path : String) (probe : Option VideoInfo)
    (c : String) (ff : FfmpegBehavior) (faults : FsFaults) :
    (process_video_file path probe true c ff faults).decision
      = (process_video_file path probe false c ff faults).decision
    ∧ (process_video_file path probe true c ff faults).remuxInvoked = false
    ∧ (process_video_file path probe true c ff faults).backupCreated = false
    ∧ (process_video_file path probe true c ff faults).fs = ⟨some c, none⟩
    ∧ (process_video_file path probe true c ff faults).audit
      = (process_video_file path probe false c ff faults).audit := by
  cases probe with
  | none => simp [process_video_file, untouched]
  | some vi =>
    by_cases hie : vi.isEmptyDict = true
    · simp [process_video_file, hie, untouched]
    · have hne : vi.isEmptyDict = false := by simpa using hie
      by_cases hl : (get_audio_tracks vi).length ≤ 1
      · simp [process_video_file, hne, hl, untouched]
      · cases hf : find_english_track (get_audio_tracks vi) with
        | none => simp [process_video_file, hne, hl, hf]
        | some idx => simp [process_video_file, hne, hl, hf]

/-- C8 counterexample: on a concrete ambiguous file, the dry run DOES append
an entry to the audit log — refuting the claim that a dry run performs no
audit-log write for ambiguous files. -/
theorem c8_counterexample :
    (process_video_file pathF (some viAmbiguous) true contentA ffOk
        noFaults).audit
      = some (pathF, get_audio_tracks viAmbiguous)
    ∧ (process_video_file pathF (some viAmbiguous) true contentA ffOk
        noFaults).audit ≠ none := by decide

/-- Helper: the classifier loop equals filtering the streams to audio type and
mapping each to its track record. -/
theorem audioLoop_eq_filter_map (l : List FFStream) :
    audioLoop l = (l.filter (fun s => s.codec_type == "audio")).map mkTrack := by
  induction l with
  | nil => rfl
  | cons s rest ih =>
    cases hc : s.codec_type == "audio" <;>
      simp [audioLoop, List.filter_cons, hc, ih]

/-- C9 (corrected): classification returns one record per audio stream, for
exactly the streams whose `codec_type` is `'audio'`, in source order, with
`mkTrack` supplying the defaults (`'und'` for a missing language tag, `''`
for a missing title); a manifest without audio streams (or without a
`streams` key at all) yields the empty list. The language field, however, is
the RAW tag value — lowercasing happens later, inside `find_english_track`
(see the counterexample). -/
theorem c9_classifier_shape (vi : VideoInfo) :
    get_audio_tracks vi
      = ((vi.streams.getD []).filter (fun s => s.codec_type == "audio")).map
          mkTrack
    ∧ (vi.streams = none → get_audio_tracks vi = []) := by
  constructor
  · unfold get_audio_tracks
    exact audioLoop_eq_filter_map _
  · intro h
    simp [get_audio_tracks, h, audioLoop]

/-- Witness for `c9_classifier_shape` at a manifest with no `streams` key. -/
theorem c9_witness : get_audio_tracks viNoStreams = [] :=
  (c9_classifier_shape viNoStreams).2 rfl

/-- C9 counterexample: a stream tagged `ENG` is classified with language field
`ENG`, not the lowercase-normalized `eng` the claim asserts. -/
theorem c9_counterexample :
    (get_audio_tracks viUpperLang).map AudioTrack.language = [("ENG" : String)]
    ∧ lowerStr ("ENG") = ("eng" : String)
    ∧ ("ENG" : String) ≠ ("eng" : String) := by decide

/-- C10 (corrected): a parsed JSON object that lacks a `streams` list but has
at least one other key is accepted as a manifest: classification yields the
empty list via the `.get('streams', [])` default, and the file is skipped as
a success with the disk untouched. (The EMPTY object, by contrast, is falsy
and is rejected like a probe failure — see the counterexample.) -/
theorem c10_missing_streams (path : String) (vi : VideoInfo) (dryRun : Bool)
    (c : String) (ff : FfmpegBehavior) (faults : FsFaults)
    (hns : vi.streams = none) (hk : vi.hasOtherKeys = true) :
    get_audio_tracks vi = []
    ∧ process_video_file path (some vi) dryRun c ff faults = untouched c true := by
  have hne : vi.isEmptyDict = false := by
    simp [VideoInfo.isEmptyDict, hns, hk]
  have htr : get_audio_tracks vi = [] := by
    simp [get_audio_tracks, hns, audioLoop]
  refine ⟨htr, ?_⟩
  simp [process_video_file, hne, htr]

/-- Witness for `c10_missing_streams` at a concrete streams-less manifest. -/
theorem c10_witness :
    process_video_file pathF (some viNoStreams) false contentA ffOk noFaults
      = untouched contentA true :=
  (c10_missing_streams pathF viNoStreams false contentA ffOk noFaults rfl
    rfl).2

/-- C10 counterexample: the manifest parsed from an empty JSON object `\x7b\x7d`
contains no `streams` list, yet `process_video_file` returns `False` for it
(the falsy-dict check treats it like a failed probe), refuting the claim that
every such manifest is accepted and skipped as a success. -/
theorem c10_counterexample :
    (process_video_file pathF (some viEmptyDict) false contentA ffOk
        noFaults).result = false
    ∧ process_video_file pathF (some viEmptyDict) false contentA ffOk noFaults
        = untouched contentA false := by decide
